import Mathlib

/-!
# callseq: the C++ tracing runtime of `callseq.hpp`

A shallow embedding of `callseq/cxx/include/callseq.hpp` and a verification of
the record format written by `SitePoint`, of the Enter/Exit pairing of a run,
of the thread token and of the behaviour of the sink when its destination
cannot be opened.

Conventions of the embedding.

* `uint64_t`, `size_t` and `uintptr_t` values are natural numbers; the one place
  where the source does arithmetic that can wrap (`nanos() - start_`) is reduced
  modulo `2 ^ 64`.
* A pointer is the address it holds; `nullptr` is `0`.
* `std::string` and `const char *` are `String`.
* The program is sequential state passing over `World`; the thread that runs
  an operation and the platform hash of thread identifiers are parameters.
* `log_` is kept as the sequence of lines it received; one
  `log_ << message << std::endl` appends one line.
* Numbers are formatted in the classic locale: digits only, no grouping.
-/

namespace callseq

/-! ## Formatted output: `std::stringstream` with its `basefield` flag -/

/-- The `basefield` part of a stream's format flags, as set by `std::dec` and
`std::hex`. -/
inductive Basefield where
  | dec
  | hex
  deriving DecidableEq, Repr

/-- A `std::stringstream` used for output: its buffer and its sticky base flag. -/
structure StringStream where
  buf : String
  basefield : Basefield
  deriving DecidableEq, Repr

namespace StringStream

/-- A freshly constructed `std::stringstream`: empty buffer, decimal base. -/
def init : StringStream := ⟨"", Basefield.dec⟩

/-- The manipulators `stream << std::hex` and `stream << std::dec`. -/
def setbase (s : StringStream) (b : Basefield) : StringStream :=
  { s with basefield := b }

/-- The call `stream << text` for a `const char *` or a string literal: the
characters are copied and the base flag is not consulted. -/
def putStr (s : StringStream) (x : String) : StringStream :=
  { s with buf := s.buf ++ x }

/-- The call `stream << n` for an unsigned integer (`size_t`, `uintptr_t`,
`uint64_t`): no sign, no base marker, no padding, lowercase hexadecimal
digits. -/
def putUnsigned (s : StringStream) (n : Nat) : StringStream :=
  match s.basefield with
  | Basefield.dec => { s with buf := s.buf ++ String.mk (Nat.toDigits 10 n) }
  | Basefield.hex => { s with buf := s.buf ++ String.mk (Nat.toDigits 16 n) }

/-- The call `stream << i` for an `int`: in decimal a minus sign and the digits
of the magnitude, in hexadecimal the digits of the 32-bit two-complement
pattern. -/
def putInt (s : StringStream) (i : Int) : StringStream :=
  match s.basefield with
  | Basefield.dec =>
      if i < 0 then { s with buf := s.buf ++ "-" ++ String.mk (Nat.toDigits 10 i.natAbs) }
      else { s with buf := s.buf ++ String.mk (Nat.toDigits 10 i.natAbs) }
  | Basefield.hex => { s with buf := s.buf ++ String.mk (Nat.toDigits 16 (i % 2 ^ 32).toNat) }

/-- The call `stream.str()`. -/
def str (s : StringStream) : String := s.buf

end StringStream

/-! ## The world: clock, threads, the static `Logger` -/

/-- A `std::thread::id`. -/
abbrev ThreadId := Nat

/-- The default value of the preprocessor symbol `CALLSEQ_OUTPUT`. -/
def CALLSEQ_OUTPUT : String := "callseq.output"

/-- The member `std::ofstream log_`: whether its `failbit` is set and the lines
that reached the destination through it. -/
structure OfStream where
  failbit : Bool
  out : List String
  deriving DecidableEq, Repr

/-- A default-constructed `std::ofstream`, not yet associated with a file. -/
def OfStream.init : OfStream := ⟨false, []⟩

/-- The call `log_.open(path)`: on success the destination is truncated and the
stream stays good; on failure the stream sets `failbit`. No exception is
thrown, since the exception mask of `log_` is never changed. -/
def OfStream.openFile (_s : OfStream) (ok : Bool) : OfStream :=
  if ok then ⟨false, []⟩ else ⟨true, []⟩

/-- The statement `log_ << message << std::endl`: a stream whose `failbit` is
set ignores the insertion, a good stream appends the line. -/
def OfStream.putLine (s : OfStream) (message : String) : OfStream :=
  if s.failbit then s else { s with out := s.out ++ [message] }

/-- The data members of `class Logger`. -/
structure Logger where
  log_ : OfStream
  start_ : Nat
  deriving DecidableEq, Repr

/-- The state of the process as far as the tracing runtime sees it.

* `clock k` is the `k`-th reading of `high_resolution_clock` in nanoseconds
  and `reads` the number of readings taken so far;
* `openable` tells whether `CALLSEQ_OUTPUT` can be opened for writing;
* `cout` is the status channel;
* `instance_` is the function-local `static Logger instance` of
  `getInstance`, `none` until the first call. -/
structure World where
  clock : Nat → Nat
  reads : Nat
  openable : Bool
  cout : List String
  instance_ : Option Logger

/-- The function `callseq::nanos()`: one clock reading, as a `uint64_t`. -/
def nanos (w : World) : Nat × World :=
  (w.clock w.reads % 2 ^ 64, { w with reads := w.reads + 1 })

/-- The function `callseq::thread_id()` run on thread `th`; `hash` is
`std::hash<std::thread::id>`. -/
def thread_id (hash : ThreadId → Nat) (th : ThreadId) : Nat :=
  hash th &&& 0xffffff

namespace Logger

/-- The constructor `Logger::Logger()`: `start_` is initialised from the clock,
the notice goes to `std::cout`, and `log_` is opened without any test of the
outcome. -/
def ctor (w : World) : Logger × World :=
  let (start, w1) := nanos w
  let w2 := { w1 with cout := w1.cout ++ ["callseq logs to " ++ CALLSEQ_OUTPUT] }
  (⟨OfStream.init.openFile w2.openable, start⟩, w2)

/-- The function `Logger::getInstance()`: the static local is constructed on the
first call and returned as it is on every later one. -/
def getInstance (w : World) : Logger × World :=
  match w.instance_ with
  | some l => (l, w)
  | none =>
      let (l, w1) := ctor w
      (l, { w1 with instance_ := some l })

/-- The member `Logger::write_worker`: under the mutex, one line is inserted
into `log_`. -/
def write_worker (l : Logger) (message : String) : Logger :=
  { l with log_ := l.log_.putLine message }

/-- The member `Logger::nanos_worker`: the clock minus `start_`, in `uint64_t`
arithmetic. -/
def nanos_worker (l : Logger) (w : World) : Nat × World :=
  let (now, w1) := callseq.nanos w
  ((now + 2 ^ 64 - l.start_ % 2 ^ 64) % 2 ^ 64, w1)

/-- The static function `Logger::write`. -/
def write (message : String) (w : World) : World :=
  let (l, w1) := getInstance w
  { w1 with instance_ := some (l.write_worker message) }

/-- The static function `Logger::nanos`. -/
def nanos (w : World) : Nat × World :=
  let (l, w1) := getInstance w
  l.nanos_worker w1

end Logger

/-- The lines that the sink of this process has written so far. -/
def World.log (w : World) : List String :=
  match w.instance_ with
  | none => []
  | some l => l.log_.out

/-! ## `SitePoint` -/

/-- The data members of `SitePoint<T>`. -/
structure SitePoint where
  calling_site_id_ : Nat
  this_ : Nat
  deriving DecidableEq, Repr

namespace SitePoint

/-- The insertions of the constructor body into its local `stream`, with
`start` the value of `Logger::nanos()` and `tid` that of `thread_id()`. -/
def enterStream (sp : SitePoint) (start tid : Nat) (caller_signature caller_file : String)
    (lineno : Int) : StringStream :=
  let stream := StringStream.init
  let stream := (stream.putStr "\x7b").putUnsigned sp.calling_site_id_
  let stream := ((stream.putStr "|0x").setbase Basefield.hex).putUnsigned sp.this_
  let stream := ((((stream.putStr "|").setbase Basefield.dec).putUnsigned
    (start / 1000000000)).putStr ".").putUnsigned (start % 1000000000)
  let stream := ((stream.putStr "|0x").setbase Basefield.hex).putUnsigned tid
  let stream := (stream.putStr "|").putStr caller_signature
  let stream := ((((stream.putStr "|").putStr caller_file).putStr "#").setbase
    Basefield.dec).putInt lineno
  stream

/-- The constructor `SitePoint::SitePoint`, run on thread `th`. -/
def ctor (hash : ThreadId → Nat) (th : ThreadId) (calling_site_id caller_this : Nat)
    (caller_signature caller_file : String) (lineno : Int) (w : World) : SitePoint × World :=
  let sp : SitePoint := ⟨calling_site_id, caller_this⟩
  let (start, w1) := Logger.nanos w
  let stream := sp.enterStream start (thread_id hash th) caller_signature caller_file lineno
  (sp, Logger.write stream.str w1)

/-- The insertions of the destructor body into its local `stream`, with `end_`
the value of `Logger::nanos()` and `tid` that of `thread_id()`. -/
def exitStream (sp : SitePoint) (end_ tid : Nat) : StringStream :=
  let stream := StringStream.init
  let stream := (stream.putStr "\x7d").putUnsigned sp.calling_site_id_
  let stream := ((stream.putStr "|0x").setbase Basefield.hex).putUnsigned sp.this_
  let stream := ((((stream.putStr "|").setbase Basefield.dec).putUnsigned
    (end_ / 1000000000)).putStr ".").putUnsigned (end_ % 1000000000)
  let stream := ((stream.putStr "|0x").setbase Basefield.hex).putUnsigned tid
  stream

/-- The destructor `SitePoint::~SitePoint`, run on thread `th`. -/
def dtor (hash : ThreadId → Nat) (th : ThreadId) (sp : SitePoint) (w : World) : World :=
  let (end_, w1) := Logger.nanos w
  let stream := sp.exitStream end_ (thread_id hash th)
  Logger.write stream.str w1

end SitePoint

/-! ## The record formats of the specification -/

/-- Decimal text of a natural number. -/
def decimal (n : Nat) : String := String.mk (Nat.toDigits 10 n)

/-- Lowercase hexadecimal text of a natural number, without the `0x` marker. -/
def lowerHex (n : Nat) : String := String.mk (Nat.toDigits 16 n)

/-- Decimal text of an integer, with a minus sign when it is negative. -/
def decimalInt (i : Int) : String :=
  if i < 0 then "-" ++ decimal i.natAbs else decimal i.natAbs

/-- The Enter record of the specification for relative time `t`. -/
def enterLine (site_id instance_token t thread_token : Nat) (signature file : String)
    (line : Int) : String :=
  "\x7b" ++ decimal site_id ++ "|0x" ++ lowerHex instance_token ++ "|" ++
    decimal (t / 10 ^ 9) ++ "." ++ decimal (t % 10 ^ 9) ++ "|0x" ++ lowerHex thread_token ++
    "|" ++ signature ++ "|" ++ file ++ "#" ++ decimalInt line

/-- The Exit record of the specification for relative time `t`. -/
def exitLine (site_id instance_token t thread_token : Nat) : String :=
  "\x7d" ++ decimal site_id ++ "|0x" ++ lowerHex instance_token ++ "|" ++
    decimal (t / 10 ^ 9) ++ "." ++ decimal (t % 10 ^ 9) ++ "|0x" ++ lowerHex thread_token

/-! ## Runs -/

/-- One step of a run of an instrumented program: thread `th` constructs the
`SitePoint` object `obj`, or thread `th` destroys it. -/
inductive Event where
  | construct (obj : Nat) (th : ThreadId) (calling_site_id caller_this : Nat)
      (caller_signature caller_file : String) (lineno : Int)
  | destroy (obj : Nat) (th : ThreadId)
  deriving DecidableEq, Repr

/-- The effect of one event on the world and on the `SitePoint` objects alive,
kept by object identity. Destroying an object that is not alive does nothing. -/
def step (hash : ThreadId → Nat) (s : World × List (Nat × SitePoint)) :
    Event → World × List (Nat × SitePoint)
  | Event.construct obj th site this sig file ln =>
      let r := SitePoint.ctor hash th site this sig file ln s.1
      (r.2, (obj, r.1) :: s.2)
  | Event.destroy obj th =>
      match s.2.find? (fun e => e.1 == obj) with
      | some e => (SitePoint.dtor hash th e.2 s.1, s.2.eraseP (fun e => e.1 == obj))
      | none => s

/-- The effect of a sequence of events. The clock of the world is arbitrary, so
the timestamps of the lines are not tied to their order in the log. -/
def run (hash : ThreadId → Nat) (evs : List Event) (s : World × List (Nat × SitePoint)) :
    World × List (Nat × SitePoint) :=
  evs.foldl (step hash) s

/-- A sequence of events is a run: with `live` the objects alive and the threads
that constructed them, an object is constructed only while it is not alive, it
is destroyed only while it is alive and by the thread that constructed it, and
nothing is alive at the end. -/
def wellFormed : List (Nat × ThreadId) → List Event → Bool
  | live, [] => live.isEmpty
  | live, Event.construct obj th _ _ _ _ _ :: evs =>
      !(live.any (fun e => e.1 == obj)) && wellFormed ((obj, th) :: live) evs
  | live, Event.destroy obj th :: evs =>
      (live.find? (fun e => e.1 == obj) == some (obj, th)) &&
        wellFormed (live.eraseP (fun e => e.1 == obj)) evs

/-- A line of the log is an Enter record: it starts with an opening brace. -/
def isEnterLine (l : String) : Bool := l.data.head? == some '\x7b'

/-- A line of the log is an Exit record: it starts with a closing brace. -/
def isExitLine (l : String) : Bool := l.data.head? == some '\x7d'

/-- Lines `p.1` and `p.2` of the log are an Enter record and an Exit record with
the same `site_id`, `instance_token` and `thread_token`. -/
def Matched (log : List String) (p : Nat × Nat) : Prop :=
  ∃ (s i tid t0 : Nat) (sig file : String) (ln : Int) (t1 : Nat),
    log[p.1]? = some (enterLine s i t0 tid sig file ln) ∧
      log[p.2]? = some (exitLine s i t1 tid)

/-! ## Auxiliary definitions of the proofs -/

/-- The sink is usable: its destination can be opened when the `Logger` does
not exist yet, and `failbit` is clear when it does. -/
def World.good (w : World) : Bool :=
  match w.instance_ with
  | none => w.openable
  | some l => !l.log_.failbit

/-- The state of a process that has not touched the sink yet. -/
def World.boot (clock : Nat → Nat) (openable : Bool) : World :=
  { clock := clock, reads := 0, openable := openable, cout := [], instance_ := none }

/-- The value of a digit character, the inverse of `Nat.digitChar` below 16. -/
def digitVal (c : Char) : Nat :=
  if c.toNat ≤ 57 then c.toNat - 48 else c.toNat - 87

/-- The number denoted by a list of digit characters in base `b`. -/
def digitsVal (b : Nat) (cs : List Char) : Nat :=
  cs.foldl (fun acc c => acc * b + digitVal c) 0

/-- Bookkeeping for a `SitePoint` that is alive: its identity, the thread that
constructed it, the object, and the index of its Enter line. -/
structure Open where
  obj : Nat
  th : ThreadId
  sp : SitePoint
  idx : Nat

/-- The invariant of a run on a usable sink: the pairs `ps` and the Enter lines
of the objects alive share out the lines of the log, each pair is an Enter line
and a later matching Exit line, and each object alive has its Enter line. -/
def Inv (hash : ThreadId → Nat) (log : List String) (ps : List (Nat × Nat))
    (G : List Open) : Prop :=
  (ps.map Prod.fst ++ ps.map Prod.snd ++ G.map Open.idx).Perm (List.range log.length) ∧
  (∀ p ∈ ps, p.1 < p.2 ∧ Matched log p) ∧
  (∀ g ∈ G, ∃ (t : Nat) (sig file : String) (ln : Int),
    log[g.idx]? = some (enterLine g.sp.calling_site_id_ g.sp.this_ t (thread_id hash g.th)
      sig file ln))

/-! ## Reading a record back -/

/-- The fields of a line: the pieces between occurrences of the separator. -/
def splitOnChar (sep : Char) : List Char → List (List Char)
  | [] => [[]]
  | c :: cs =>
      if c = sep then [] :: splitOnChar sep cs
      else
        match splitOnChar sep cs with
        | [] => [[c]]
        | f :: fs => (c :: f) :: fs

/-- The timestamp field of a record: the third field between bars. -/
def timestampField (line : String) : String :=
  String.mk ((splitOnChar '|' line.data).getD 2 [])

/-- The parts of a timestamp field `<sec>.<nanofraction>`: the number before
the point, the number after it, and how many digits follow the point. -/
def timestampParts (field : String) : Nat × Nat × Nat :=
  match splitOnChar '.' field.data with
  | [ip, fp] => (digitsVal 10 ip, digitsVal 10 fp, fp.length)
  | _ => (0, 0, 0)

/-- A timestamp field `<sec>.<nanofraction>` read as a decimal number of
seconds. -/
def readSeconds (field : String) : ℚ :=
  ((timestampParts field).1 : ℚ) +
    ((timestampParts field).2.1 : ℚ) / 10 ^ (timestampParts field).2.2

/-- A clock that reads 0 when the `Logger` is created, 1.000000005 s when a
tracer is constructed and 1.1 s when it is destroyed. -/
def slowScopeClock (k : Nat) : Nat := [0, 1000000005, 1100000000].getD k 0

/-! ## Record formats -/

theorem enterStream_str (sp : SitePoint) (start tid : Nat) (sig file : String) (lineno : Int) :
    (sp.enterStream start tid sig file lineno).str =
      enterLine sp.calling_site_id_ sp.this_ start tid sig file lineno := by
  simp only [SitePoint.enterStream, StringStream.init, StringStream.putStr,
    StringStream.setbase, StringStream.putUnsigned, StringStream.putInt, StringStream.str,
    enterLine, decimal, lowerHex, decimalInt, Nat.reducePow]
  split <;> (apply String.ext; simp only [String.data_append, List.append_assoc]; rfl)

theorem exitStream_str (sp : SitePoint) (end_ tid : Nat) :
    (sp.exitStream end_ tid).str = exitLine sp.calling_site_id_ sp.this_ end_ tid := by
  simp [SitePoint.exitStream, StringStream.init, StringStream.putStr,
    StringStream.setbase, StringStream.putUnsigned, StringStream.str,
    exitLine, decimal, lowerHex, String.append_assoc]

/-! ## The sink: what `Logger::nanos` and `Logger::write` do to the log -/

theorem nanos_log (w : World) : (Logger.nanos w).2.log = w.log := by
  obtain ⟨clock, reads, openable, cout, inst⟩ := w
  cases inst with
  | some l => rfl
  | none => cases openable <;> rfl

theorem nanos_good (w : World) : (Logger.nanos w).2.good = w.good := by
  obtain ⟨clock, reads, openable, cout, inst⟩ := w
  cases inst with
  | some l => rfl
  | none => cases openable <;> rfl

theorem write_log (m : String) (w : World) :
    (Logger.write m w).log = if w.good then w.log ++ [m] else w.log := by
  obtain ⟨clock, reads, openable, cout, inst⟩ := w
  cases inst with
  | some l =>
    obtain ⟨⟨failbit, out⟩, start⟩ := l
    cases failbit <;> rfl
  | none => cases openable <;> rfl

theorem write_good (m : String) (w : World) : (Logger.write m w).good = w.good := by
  obtain ⟨clock, reads, openable, cout, inst⟩ := w
  cases inst with
  | some l =>
    obtain ⟨⟨failbit, out⟩, start⟩ := l
    cases failbit <;> rfl
  | none => cases openable <;> rfl

theorem ctor_fst (hash : ThreadId → Nat) (th : ThreadId) (site this : Nat)
    (sig file : String) (ln : Int) (w : World) :
    (SitePoint.ctor hash th site this sig file ln w).1 = ⟨site, this⟩ := rfl

theorem ctor_snd (hash : ThreadId → Nat) (th : ThreadId) (site this : Nat)
    (sig file : String) (ln : Int) (w : World) :
    (SitePoint.ctor hash th site this sig file ln w).2 =
      Logger.write (enterLine site this (Logger.nanos w).1 (thread_id hash th) sig file ln)
        (Logger.nanos w).2 := by
  simp only [SitePoint.ctor, enterStream_str]

theorem dtor_eq (hash : ThreadId → Nat) (th : ThreadId) (sp : SitePoint) (w : World) :
    SitePoint.dtor hash th sp w =
      Logger.write (exitLine sp.calling_site_id_ sp.this_ (Logger.nanos w).1 (thread_id hash th))
        (Logger.nanos w).2 := by
  simp only [SitePoint.dtor, exitStream_str]

theorem ctor_log (hash : ThreadId → Nat) (th : ThreadId) (site this : Nat)
    (sig file : String) (ln : Int) (w : World) :
    (SitePoint.ctor hash th site this sig file ln w).2.log =
      if w.good then
        w.log ++ [enterLine site this (Logger.nanos w).1 (thread_id hash th) sig file ln]
      else w.log := by
  rw [ctor_snd, write_log, nanos_good, nanos_log]

theorem ctor_good (hash : ThreadId → Nat) (th : ThreadId) (site this : Nat)
    (sig file : String) (ln : Int) (w : World) :
    (SitePoint.ctor hash th site this sig file ln w).2.good = w.good := by
  rw [ctor_snd, write_good, nanos_good]

theorem dtor_log (hash : ThreadId → Nat) (th : ThreadId) (sp : SitePoint) (w : World) :
    (SitePoint.dtor hash th sp w).log =
      if w.good then
        w.log ++ [exitLine sp.calling_site_id_ sp.this_ (Logger.nanos w).1 (thread_id hash th)]
      else w.log := by
  rw [dtor_eq, write_log, nanos_good, nanos_log]

theorem dtor_good (hash : ThreadId → Nat) (th : ThreadId) (sp : SitePoint) (w : World) :
    (SitePoint.dtor hash th sp w).good = w.good := by
  rw [dtor_eq, write_good, nanos_good]

/-! ## Digits -/

theorem digitVal_digitChar : ∀ d, d < 16 → digitVal (Nat.digitChar d) = d := by decide

theorem digitChar_ne_bar : ∀ d, d < 16 → Nat.digitChar d ≠ '|' := by decide

theorem digitChar_ne_dot : ∀ d, d < 16 → Nat.digitChar d ≠ '.' := by decide

theorem digitsVal_append (b : Nat) (cs : List Char) (c : Char) :
    digitsVal b (cs ++ [c]) = digitsVal b cs * b + digitVal c := by
  simp [digitsVal, List.foldl_append]

theorem toDigitsCore_spec (b : Nat) (hb : 2 ≤ b) (hb16 : b ≤ 16) :
    ∀ (fuel n : Nat) (ds : List Char), n < fuel →
      ∃ pre : List Char, Nat.toDigitsCore b fuel n ds = pre ++ ds ∧ digitsVal b pre = n ∧
        ∀ c ∈ pre, ∃ d, d < 16 ∧ c = Nat.digitChar d := by
  intro fuel
  induction fuel with
  | zero => intro n ds h; omega
  | succ fuel ih =>
    intro n ds h
    have hmod : n % b < 16 := lt_of_lt_of_le (Nat.mod_lt _ (by omega)) hb16
    by_cases h0 : n / b = 0
    · refine ⟨[Nat.digitChar (n % b)], ?_, ?_, ?_⟩
      · simp [Nat.toDigitsCore, h0]
      · have hn : n < b := (Nat.div_eq_zero_iff (by omega)).mp h0
        have hn16 : n < 16 := lt_of_lt_of_le hn hb16
        simp [digitsVal, Nat.mod_eq_of_lt hn, digitVal_digitChar _ hn16]
      · intro c hc
        simp at hc
        exact ⟨n % b, hmod, hc⟩
    · have hlt : n / b < fuel := by
        have : n / b < n := Nat.div_lt_self (by
          rcases Nat.eq_zero_or_pos n with h1 | h1
          · subst h1; simp at h0
          · exact h1) hb
        omega
      obtain ⟨pre, hpre, hval, hdig⟩ := ih (n / b) (Nat.digitChar (n % b) :: ds) hlt
      refine ⟨pre ++ [Nat.digitChar (n % b)], ?_, ?_, ?_⟩
      · simp [Nat.toDigitsCore, h0, hpre]
      · rw [digitsVal_append, hval, digitVal_digitChar _ hmod]
        exact Nat.div_add_mod' n b
      · intro c hc
        rcases List.mem_append.mp hc with hc | hc
        · exact hdig c hc
        · simp at hc
          exact ⟨n % b, hmod, hc⟩

theorem toDigits_val (b : Nat) (hb : 2 ≤ b) (hb16 : b ≤ 16) (n : Nat) :
    digitsVal b (Nat.toDigits b n) = n := by
  obtain ⟨pre, hpre, hval, _⟩ := toDigitsCore_spec b hb hb16 (n + 1) n [] (Nat.lt_succ_self n)
  simp only [List.append_nil] at hpre
  rw [Nat.toDigits, hpre, hval]

theorem toDigits_inj (b : Nat) (hb : 2 ≤ b) (hb16 : b ≤ 16) (n m : Nat)
    (h : Nat.toDigits b n = Nat.toDigits b m) : n = m := by
  rw [← toDigits_val b hb hb16 n, ← toDigits_val b hb hb16 m, h]

theorem toDigits_digit (b : Nat) (hb : 2 ≤ b) (hb16 : b ≤ 16) (n : Nat) :
    ∀ c ∈ Nat.toDigits b n, ∃ d, d < 16 ∧ c = Nat.digitChar d := by
  obtain ⟨pre, hpre, _, hdig⟩ := toDigitsCore_spec b hb hb16 (n + 1) n [] (Nat.lt_succ_self n)
  simp only [List.append_nil] at hpre
  rw [Nat.toDigits, hpre]
  exact hdig

theorem bar_not_mem_toDigits (b : Nat) (hb : 2 ≤ b) (hb16 : b ≤ 16) (n : Nat) :
    '|' ∉ Nat.toDigits b n := by
  intro h
  obtain ⟨d, hd, hc⟩ := toDigits_digit b hb hb16 n _ h
  exact digitChar_ne_bar d hd hc.symm

theorem dot_not_mem_toDigits (b : Nat) (hb : 2 ≤ b) (hb16 : b ≤ 16) (n : Nat) :
    '.' ∉ Nat.toDigits b n := by
  intro h
  obtain ⟨d, hd, hc⟩ := toDigits_digit b hb hb16 n _ h
  exact digitChar_ne_dot d hd hc.symm

/-- Two texts that agree up to and after the first occurrence of a separator
have equal parts. -/
theorem append_sep_inj (c : Char) :
    ∀ (xs ys r s : List Char), c ∉ xs → c ∉ ys → xs ++ c :: r = ys ++ c :: s →
      xs = ys ∧ r = s := by
  intro xs
  induction xs with
  | nil =>
    intro ys r s _ hy h
    cases ys with
    | nil => simpa using h
    | cons y ys =>
      simp at h
      simp [h.1] at hy
  | cons x xs ih =>
    intro ys r s hx hy h
    cases ys with
    | nil =>
      simp at h
      simp [h.1] at hx
    | cons y ys =>
      simp at h hx hy
      obtain ⟨h1, h2⟩ := ih ys r s hx.2 hy.2 h.2
      exact ⟨by rw [h.1, h1], h2⟩

theorem exitLine_data (s i t tid : Nat) :
    (exitLine s i t tid).data =
      '\x7d' :: (Nat.toDigits 10 s ++ '|' :: '0' :: 'x' :: (Nat.toDigits 16 i ++ '|' ::
        (Nat.toDigits 10 (t / 10 ^ 9) ++ '.' :: (Nat.toDigits 10 (t % 10 ^ 9) ++
          '|' :: '0' :: 'x' :: Nat.toDigits 16 tid)))) := by
  simp only [exitLine, decimal, lowerHex, String.data_append]
  simp

theorem enterLine_data (s i t tid : Nat) (sig file : String) (ln : Int) :
    (enterLine s i t tid sig file ln).data =
      '\x7b' :: (Nat.toDigits 10 s ++ '|' :: '0' :: 'x' :: (Nat.toDigits 16 i ++ '|' ::
        (Nat.toDigits 10 (t / 10 ^ 9) ++ '.' :: (Nat.toDigits 10 (t % 10 ^ 9) ++
          '|' :: '0' :: 'x' :: (Nat.toDigits 16 tid ++ '|' :: (sig.data ++ '|' ::
            (file.data ++ '#' :: (decimalInt ln).data))))))) := by
  simp only [enterLine, decimal, lowerHex, String.data_append]
  simp

theorem exitLine_inj (s i t tid s' i' t' tid' : Nat)
    (h : exitLine s i t tid = exitLine s' i' t' tid') :
    s = s' ∧ i = i' ∧ t = t' ∧ tid = tid' := by
  have hd := congrArg String.data h
  rw [exitLine_data, exitLine_data] at hd
  have h1 := List.cons.inj hd
  obtain ⟨hs, h2⟩ := append_sep_inj '|' _ _ _ _
    (bar_not_mem_toDigits 10 (by decide) (by decide) s)
    (bar_not_mem_toDigits 10 (by decide) (by decide) s') h1.2
  have h3 := (List.cons.inj (List.cons.inj h2).2).2
  obtain ⟨hi, h4⟩ := append_sep_inj '|' _ _ _ _
    (bar_not_mem_toDigits 16 (by decide) (by decide) i)
    (bar_not_mem_toDigits 16 (by decide) (by decide) i') h3
  obtain ⟨hsec, h5⟩ := append_sep_inj '.' _ _ _ _
    (dot_not_mem_toDigits 10 (by decide) (by decide) _)
    (dot_not_mem_toDigits 10 (by decide) (by decide) _) h4
  obtain ⟨hfrac, h6⟩ := append_sep_inj '|' _ _ _ _
    (bar_not_mem_toDigits 10 (by decide) (by decide) _)
    (bar_not_mem_toDigits 10 (by decide) (by decide) _) h5
  have h7 := (List.cons.inj (List.cons.inj h6).2).2
  have e1 := toDigits_inj 10 (by decide) (by decide) _ _ hs
  have e2 := toDigits_inj 16 (by decide) (by decide) _ _ hi
  have e3 := toDigits_inj 10 (by decide) (by decide) _ _ hsec
  have e4 := toDigits_inj 10 (by decide) (by decide) _ _ hfrac
  have e5 := toDigits_inj 16 (by decide) (by decide) _ _ h7
  refine ⟨e1, e2, ?_, e5⟩
  rw [← Nat.div_add_mod t (10 ^ 9), ← Nat.div_add_mod t' (10 ^ 9), e3, e4]

/-! ## Pairing of the Enter and Exit lines of a run -/

theorem getElem?_append_some {α : Type} (l r : List α) (k : Nat) (a : α)
    (h : l[k]? = some a) : (l ++ r)[k]? = some a := by
  have hk : k < l.length := by
    by_contra hk
    rw [List.getElem?_eq_none (by omega)] at h
    cases h
  rw [List.getElem?_append_left hk, h]

theorem Matched.append {log : List String} {p : Nat × Nat} (h : Matched log p)
    (r : List String) : Matched (log ++ r) p := by
  obtain ⟨s, i, tid, t0, sig, file, ln, t1, h1, h2⟩ := h
  exact ⟨s, i, tid, t0, sig, file, ln, t1, getElem?_append_some _ _ _ _ h1,
    getElem?_append_some _ _ _ _ h2⟩

theorem perm_construct (A G R : List Nat) (n : Nat) (h : (A ++ G).Perm R) :
    (A ++ n :: G).Perm (R ++ [n]) := by
  refine List.perm_iff_count.mpr (fun a => ?_)
  have := List.perm_iff_count.mp h a
  simp only [List.count_append, List.count_cons, List.count_nil] at this ⊢
  omega

theorem perm_destroy (A B as bs R : List Nat) (i n : Nat)
    (h : (A ++ B ++ (as ++ i :: bs)).Perm R) :
    ((i :: A) ++ (n :: B) ++ (as ++ bs)).Perm (R ++ [n]) := by
  refine List.perm_iff_count.mpr (fun a => ?_)
  have := List.perm_iff_count.mp h a
  simp only [List.count_append, List.count_cons, List.count_nil, List.cons_append] at this ⊢
  omega

theorem find?_map_key {β : Type} (G : List Open) (obj : Nat) (f : Open → Nat × β)
    (hf : ∀ g, (f g).1 = g.obj) :
    (G.map f).find? (fun e => e.1 == obj) = (G.find? (fun g => g.obj == obj)).map f := by
  rw [List.find?_map]
  congr 2
  funext g
  simp [hf]

theorem eraseP_map_key {β : Type} (G : List Open) (obj : Nat) (f : Open → Nat × β)
    (hf : ∀ g, (f g).1 = g.obj) :
    (G.map f).eraseP (fun e => e.1 == obj) = (G.eraseP (fun g => g.obj == obj)).map f := by
  rw [List.eraseP_map]
  congr 2
  funext g
  simp [hf]

theorem Inv.construct {hash : ThreadId → Nat} {log : List String} {ps : List (Nat × Nat)}
    {G : List Open} (h : Inv hash log ps G) (obj : Nat) (th : ThreadId) (site this t : Nat)
    (sig file : String) (ln : Int) :
    Inv hash (log ++ [enterLine site this t (thread_id hash th) sig file ln]) ps
      (⟨obj, th, ⟨site, this⟩, log.length⟩ :: G) := by
  obtain ⟨hperm, hps, hG⟩ := h
  refine ⟨?_, ?_, ?_⟩
  · rw [List.length_append, List.length_singleton, List.range_succ, List.map_cons]
    exact perm_construct _ _ _ _ hperm
  · intro p hp
    exact ⟨(hps p hp).1, (hps p hp).2.append _⟩
  · intro g hg
    rcases List.mem_cons.mp hg with rfl | hg
    · exact ⟨t, sig, file, ln, List.getElem?_concat_length _ _⟩
    · obtain ⟨t', sig', file', ln', h'⟩ := hG g hg
      exact ⟨t', sig', file', ln', getElem?_append_some _ _ _ _ h'⟩

theorem Inv.destroy {hash : ThreadId → Nat} {log : List String} {ps : List (Nat × Nat)}
    {as bs : List Open} {g : Open} (h : Inv hash log ps (as ++ g :: bs)) (t : Nat) :
    Inv hash (log ++ [exitLine g.sp.calling_site_id_ g.sp.this_ t (thread_id hash g.th)])
      ((g.idx, log.length) :: ps) (as ++ bs) := by
  obtain ⟨hperm, hps, hG⟩ := h
  have hidx : g.idx < log.length := by
    have hm : g.idx ∈ ps.map Prod.fst ++ ps.map Prod.snd ++ (as ++ g :: bs).map Open.idx := by
      simp
    exact List.mem_range.mp (hperm.subset hm)
  refine ⟨?_, ?_, ?_⟩
  · rw [List.length_append, List.length_singleton, List.range_succ]
    simp only [List.map_cons, List.map_append] at hperm ⊢
    exact perm_destroy _ _ _ _ _ _ _ hperm
  · intro p hp
    rcases List.mem_cons.mp hp with rfl | hp
    · refine ⟨hidx, ?_⟩
      obtain ⟨t0, sig, file, ln, h0⟩ := hG g (by simp)
      exact ⟨_, _, _, t0, sig, file, ln, t, getElem?_append_some _ _ _ _ h0,
        List.getElem?_concat_length _ _⟩
    · exact ⟨(hps p hp).1, (hps p hp).2.append _⟩
  · intro g' hg'
    obtain ⟨t', sig', file', ln', h'⟩ := hG g' (by
      rcases List.mem_append.mp hg' with h1 | h1
      · exact List.mem_append_left _ h1
      · exact List.mem_append_right _ (List.mem_cons_of_mem _ h1))
    exact ⟨t', sig', file', ln', getElem?_append_some _ _ _ _ h'⟩

theorem run_inv (hash : ThreadId → Nat) :
    ∀ (evs : List Event) (w : World) (G : List Open) (ps : List (Nat × Nat)),
      w.good = true → wellFormed (G.map (fun g => (g.obj, g.th))) evs = true →
      Inv hash w.log ps G →
      ∃ ps', Inv hash (run hash evs (w, G.map (fun g => (g.obj, g.sp)))).1.log ps' [] := by
  intro evs
  induction evs with
  | nil =>
    intro w G ps _ hwf hinv
    cases G with
    | nil => exact ⟨ps, hinv⟩
    | cons g G => simp [wellFormed] at hwf
  | cons e evs ih =>
    intro w G ps hg hwf hinv
    cases e with
    | construct obj th site this sig file ln =>
      simp only [wellFormed, Bool.and_eq_true] at hwf
      have hlog := ctor_log hash th site this sig file ln w
      rw [hg, if_pos rfl] at hlog
      have hinv' := hinv.construct obj th site this (Logger.nanos w).1 sig file ln
      rw [← hlog] at hinv'
      have hgood := (ctor_good hash th site this sig file ln w).trans hg
      exact ih _ (⟨obj, th, ⟨site, this⟩, w.log.length⟩ :: G) ps hgood hwf.2 hinv'
    | destroy obj th =>
      simp only [wellFormed, Bool.and_eq_true, beq_iff_eq] at hwf
      obtain ⟨hfind, hwf'⟩ := hwf
      rw [find?_map_key G obj _ (fun _ => rfl)] at hfind
      rw [eraseP_map_key G obj _ (fun _ => rfl)] at hwf'
      cases hG : G.find? (fun g => g.obj == obj) with
      | none => rw [hG] at hfind; cases hfind
      | some g =>
        rw [hG] at hfind
        have hth : g.th = th := by
          simp only [Option.map_some', Option.some.injEq, Prod.mk.injEq] at hfind
          exact hfind.2
        obtain ⟨hkey, as, bs, hsplit, has⟩ := List.find?_eq_some.mp hG
        have herase : G.eraseP (fun g => g.obj == obj) = as ++ bs := by
          have h2 : (g :: bs).eraseP (fun g => g.obj == obj) = bs :=
            List.eraseP_cons_of_pos hkey
          rw [hsplit, List.eraseP_append_right _ (by
            intro b hb
            simpa using has b hb), h2]
        have hstep : step hash (w, G.map (fun g => (g.obj, g.sp))) (Event.destroy obj th) =
            (SitePoint.dtor hash th g.sp w, (as ++ bs).map (fun g => (g.obj, g.sp))) := by
          simp only [step]
          rw [find?_map_key G obj _ (fun _ => rfl), eraseP_map_key G obj _ (fun _ => rfl),
            hG, herase]
          rfl
        have hlog := dtor_log hash th g.sp w
        rw [hg, if_pos rfl] at hlog
        rw [hsplit] at hinv
        have hinv' := hinv.destroy (Logger.nanos w).1
        rw [hth, ← hlog] at hinv'
        have hgood := (dtor_good hash th g.sp w).trans hg
        rw [herase] at hwf'
        have := ih _ (as ++ bs) _ hgood hwf' hinv'
        simpa only [run, List.foldl_cons, hstep] using this

theorem run_log_of_not_good (hash : ThreadId → Nat) :
    ∀ (evs : List Event) (w : World) (st : List (Nat × SitePoint)),
      w.good = false → (run hash evs (w, st)).1.log = w.log := by
  intro evs
  induction evs with
  | nil => intro w st _; rfl
  | cons e evs ih =>
    intro w st hg
    cases e with
    | construct obj th site this sig file ln =>
      have hlog := ctor_log hash th site this sig file ln w
      rw [hg] at hlog
      have hgood := (ctor_good hash th site this sig file ln w).trans hg
      have := ih (SitePoint.ctor hash th site this sig file ln w).2
        ((obj, (SitePoint.ctor hash th site this sig file ln w).1) :: st) hgood
      simp only [run, List.foldl_cons, step] at this ⊢
      rw [this, hlog]
      rfl
    | destroy obj th =>
      simp only [run, List.foldl_cons, step]
      cases hf : st.find? (fun e => e.1 == obj) with
      | none => exact ih w st hg
      | some e =>
        have hlog := dtor_log hash th e.2 w
        rw [hg] at hlog
        have hgood := (dtor_good hash th e.2 w).trans hg
        have := ih (SitePoint.dtor hash th e.2 w) (st.eraseP (fun e => e.1 == obj)) hgood
        simp only [run] at this
        rw [this, hlog]
        rfl

theorem count_of_pairing (log : List String) (ps : List (Nat × Nat)) (P Q : String → Bool)
    (hperm : (ps.map Prod.fst ++ ps.map Prod.snd).Perm (List.range log.length))
    (h : ∀ p ∈ ps, ∃ a b, log[p.1]? = some a ∧ log[p.2]? = some b ∧
      P a = true ∧ Q a = false ∧ Q b = true ∧ P b = false) :
    log.countP P = ps.length ∧ log.countP Q = ps.length := by
  have hlog : log = (List.range log.length).map (fun k => log.getD k "") := by
    apply List.ext_getElem
    · simp
    · intro n h1 h2
      simp [List.getD_eq_getElem?_getD, List.getElem?_eq_getElem h1]
  have key : ∀ R : String → Bool, log.countP R =
      (ps.map Prod.fst).countP (R ∘ fun k => log.getD k "") +
        (ps.map Prod.snd).countP (R ∘ fun k => log.getD k "") := by
    intro R
    conv_lhs => rw [hlog]
    rw [List.countP_map, ← hperm.countP_eq, List.countP_append]
  constructor
  · rw [key P]
    have h1 : (ps.map Prod.fst).countP (P ∘ fun k => log.getD k "") = ps.length := by
      rw [List.countP_map, List.countP_eq_length]
      intro p hp
      obtain ⟨a, b, ha, hb, h1, h2, h3, h4⟩ := h p hp
      simp [List.getD_eq_getElem?_getD, ha, h1]
    have h2 : (ps.map Prod.snd).countP (P ∘ fun k => log.getD k "") = 0 := by
      rw [List.countP_map, List.countP_eq_zero]
      intro p hp
      obtain ⟨a, b, ha, hb, h1, h2, h3, h4⟩ := h p hp
      simp [List.getD_eq_getElem?_getD, hb, h4]
    omega
  · rw [key Q]
    have h1 : (ps.map Prod.fst).countP (Q ∘ fun k => log.getD k "") = 0 := by
      rw [List.countP_map, List.countP_eq_zero]
      intro p hp
      obtain ⟨a, b, ha, hb, h1, h2, h3, h4⟩ := h p hp
      simp [List.getD_eq_getElem?_getD, ha, h2]
    have h2 : (ps.map Prod.snd).countP (Q ∘ fun k => log.getD k "") = ps.length := by
      rw [List.countP_map, List.countP_eq_length]
      intro p hp
      obtain ⟨a, b, ha, hb, h1, h2, h3, h4⟩ := h p hp
      simp [List.getD_eq_getElem?_getD, hb, h3]
    omega
theorem isEnterLine_enterLine (s i t tid : Nat) (sig file : String) (ln : Int) :
    isEnterLine (enterLine s i t tid sig file ln) = true ∧
      isExitLine (enterLine s i t tid sig file ln) = false := by
  simp only [isEnterLine, isExitLine, enterLine_data, List.head?_cons]
  decide

theorem isExitLine_exitLine (s i t tid : Nat) :
    isExitLine (exitLine s i t tid) = true ∧ isEnterLine (exitLine s i t tid) = false := by
  simp only [isEnterLine, isExitLine, exitLine_data, List.head?_cons]
  decide

theorem run_boot_pairs (hash : ThreadId → Nat) (clock : Nat → Nat) (openable : Bool)
    (evs : List Event) (hwf : wellFormed [] evs = true) :
    ∃ ps : List (Nat × Nat),
      Inv hash (run hash evs (World.boot clock openable, [])).1.log ps [] := by
  cases openable with
  | true =>
    have h0 : Inv hash (World.boot clock true).log [] [] := by
      refine ⟨?_, ?_, ?_⟩
      · exact List.Perm.refl _
      · intro p hp; cases hp
      · intro g hg; cases hg
    exact run_inv hash evs (World.boot clock true) [] [] rfl hwf h0
  | false =>
    refine ⟨[], ?_, ?_, ?_⟩
    · rw [run_log_of_not_good hash evs (World.boot clock false) [] rfl]
      exact List.Perm.refl _
    · intro p hp; cases hp
    · intro g hg; cases hg

theorem writes_log_of_not_good :
    ∀ (msgs : List String) (w : World), w.good = false →
      (msgs.foldl (fun w m => Logger.write m w) w).log = w.log := by
  intro msgs
  induction msgs with
  | nil => intro w _; rfl
  | cons m msgs ih =>
    intro w hg
    have hlog := write_log m w
    rw [hg] at hlog
    have := ih (Logger.write m w) ((write_good m w).trans hg)
    simp only [List.foldl_cons]
    rw [this, hlog]
    rfl

theorem thread_id_eq_mod (hash : ThreadId → Nat) (th : ThreadId) :
    thread_id hash th = hash th % 2 ^ 24 := by
  have h := Nat.and_pow_two_sub_one_eq_mod (hash th) 24
  simpa [thread_id] using h

/-! ## The claims -/

/-- C1: the constructor of `SitePoint` takes the relative time `t` from
`Logger::nanos` and hands to `Logger::write` exactly the line made of an opening
brace, the decimal site id, `|0x`, the lowercase hexadecimal instance token,
`|`, decimal `t / 10^9`, `.`, decimal `t mod 10^9`, `|0x`, the lowercase
hexadecimal thread token, `|`, the signature, `|`, the file, `#` and the decimal
line number; a usable sink appends this line to the log. For site id 7, the
null instance token, signature `int foo(int)`, file `test.cpp` and line 10 the
line is the text of scenario A. -/
theorem enter_record_format (hash : ThreadId → Nat) (th : ThreadId) (site this : Nat)
    (sig file : String) (ln : Int) (w : World) :
    (SitePoint.ctor hash th site this sig file ln w).2 =
        Logger.write
          ("\x7b" ++ decimal site ++ "|0x" ++ lowerHex this ++ "|" ++
            decimal ((Logger.nanos w).1 / 10 ^ 9) ++ "." ++
            decimal ((Logger.nanos w).1 % 10 ^ 9) ++ "|0x" ++
            lowerHex (thread_id hash th) ++ "|" ++ sig ++ "|" ++ file ++ "#" ++ decimalInt ln)
          (Logger.nanos w).2 ∧
      (SitePoint.ctor hash th site this sig file ln w).2.log =
        (if w.good then
          w.log ++ ["\x7b" ++ decimal site ++ "|0x" ++ lowerHex this ++ "|" ++
            decimal ((Logger.nanos w).1 / 10 ^ 9) ++ "." ++
            decimal ((Logger.nanos w).1 % 10 ^ 9) ++ "|0x" ++
            lowerHex (thread_id hash th) ++ "|" ++ sig ++ "|" ++ file ++ "#" ++ decimalInt ln]
        else w.log) ∧
      ∀ t tid : Nat,
        (SitePoint.enterStream ⟨7, 0⟩ t tid "int foo(int)" "test.cpp" 10).str =
          "\x7b7|0x0|" ++ decimal (t / 10 ^ 9) ++ "." ++ decimal (t % 10 ^ 9) ++ "|0x" ++
            lowerHex tid ++ "|int foo(int)|test.cpp#10" := by
  refine ⟨ctor_snd hash th site this sig file ln w, ctor_log hash th site this sig file ln w, ?_⟩
  intro t tid
  rw [enterStream_str]
  apply String.ext
  rw [enterLine_data]
  simp only [String.data_append, decimal, lowerHex]
  have h7 : Nat.toDigits 10 7 = ['7'] := by decide
  have h0 : Nat.toDigits 16 0 = ['0'] := by decide
  have h10 : (decimalInt 10).data = ['1', '0'] := by decide
  rw [h7, h0, h10]
  simp

/-- C2: the destructor of `SitePoint` takes the relative time `t` from
`Logger::nanos` and hands to `Logger::write` exactly the line made of a closing
brace, the decimal site id, `|0x`, the lowercase hexadecimal instance token,
`|`, decimal `t / 10^9`, `.`, decimal `t mod 10^9`, `|0x` and the lowercase
hexadecimal thread token, and nothing after it; a usable sink appends this line
to the log. -/
theorem exit_record_format (hash : ThreadId → Nat) (th : ThreadId) (sp : SitePoint)
    (w : World) :
    SitePoint.dtor hash th sp w =
        Logger.write
          ("\x7d" ++ decimal sp.calling_site_id_ ++ "|0x" ++ lowerHex sp.this_ ++ "|" ++
            decimal ((Logger.nanos w).1 / 10 ^ 9) ++ "." ++
            decimal ((Logger.nanos w).1 % 10 ^ 9) ++ "|0x" ++ lowerHex (thread_id hash th))
          (Logger.nanos w).2 ∧
      (SitePoint.dtor hash th sp w).log =
        (if w.good then
          w.log ++ ["\x7d" ++ decimal sp.calling_site_id_ ++ "|0x" ++ lowerHex sp.this_ ++ "|" ++
            decimal ((Logger.nanos w).1 / 10 ^ 9) ++ "." ++
            decimal ((Logger.nanos w).1 % 10 ^ 9) ++ "|0x" ++ lowerHex (thread_id hash th)]
        else w.log) :=
  ⟨dtor_eq hash th sp w, dtor_log hash th sp w⟩

/-- C4: for every run started in a fresh process (each tracer constructed while
not alive, destroyed once, by the thread that constructed it, none alive at the
end) there is a list `ps` of pairs of line numbers such that every line of the
log is the first component of exactly one pair or the second component of
exactly one pair, and each pair is an Enter line and a later Exit line with the
same site id, instance token and thread token. Hence no Exit line is an orphan
and the log has as many Enter lines as Exit lines. -/
theorem run_enter_exit_pairing (hash : ThreadId → Nat) (clock : Nat → Nat) (openable : Bool)
    (evs : List Event) (hwf : wellFormed [] evs = true) :
    ∃ ps : List (Nat × Nat),
      (ps.map Prod.fst ++ ps.map Prod.snd).Perm
        (List.range (run hash evs (World.boot clock openable, [])).1.log.length) ∧
      (∀ p ∈ ps, p.1 < p.2 ∧ Matched (run hash evs (World.boot clock openable, [])).1.log p) ∧
      (run hash evs (World.boot clock openable, [])).1.log.countP isEnterLine = ps.length ∧
      (run hash evs (World.boot clock openable, [])).1.log.countP isExitLine = ps.length := by
  obtain ⟨ps, hperm, hps, _⟩ := run_boot_pairs hash clock openable evs hwf
  simp only [List.map_nil, List.append_nil] at hperm
  refine ⟨ps, hperm, hps, ?_⟩
  apply count_of_pairing _ ps isEnterLine isExitLine hperm
  intro p hp
  obtain ⟨s, i, tid, t0, sig, file, ln, t1, h1, h2⟩ := (hps p hp).2
  exact ⟨_, _, h1, h2, (isEnterLine_enterLine ..).1, (isEnterLine_enterLine ..).2,
    (isExitLine_exitLine ..).1, (isExitLine_exitLine ..).2⟩

theorem run_enter_exit_pairing_witness :
    wellFormed [] [Event.construct 1 10 7 0 "f" "a.cpp" 3, Event.construct 2 20 8 4096 "g" "a.cpp" 9,
        Event.destroy 1 10, Event.destroy 2 20] = true ∧
      ∃ ps : List (Nat × Nat),
        (ps.map Prod.fst ++ ps.map Prod.snd).Perm
          (List.range (run id [Event.construct 1 10 7 0 "f" "a.cpp" 3,
            Event.construct 2 20 8 4096 "g" "a.cpp" 9, Event.destroy 1 10, Event.destroy 2 20]
            (World.boot (fun k => 5 * k) true, [])).1.log.length) ∧
        (∀ p ∈ ps, p.1 < p.2 ∧ Matched (run id [Event.construct 1 10 7 0 "f" "a.cpp" 3,
            Event.construct 2 20 8 4096 "g" "a.cpp" 9, Event.destroy 1 10, Event.destroy 2 20]
            (World.boot (fun k => 5 * k) true, [])).1.log p) ∧
        (run id [Event.construct 1 10 7 0 "f" "a.cpp" 3,
            Event.construct 2 20 8 4096 "g" "a.cpp" 9, Event.destroy 1 10, Event.destroy 2 20]
            (World.boot (fun k => 5 * k) true, [])).1.log.countP isEnterLine = ps.length ∧
        (run id [Event.construct 1 10 7 0 "f" "a.cpp" 3,
            Event.construct 2 20 8 4096 "g" "a.cpp" 9, Event.destroy 1 10, Event.destroy 2 20]
            (World.boot (fun k => 5 * k) true, [])).1.log.countP isExitLine = ps.length :=
  ⟨by decide, run_enter_exit_pairing id (fun k => 5 * k) true _ (by decide)⟩

/-- C5, as the specification states it, fails: a tracer constructed on a thread
whose token is `1` and destroyed on a thread whose token is `2` gets the token
`2` in its Exit record, not the token `1` of its Enter record. -/
theorem exit_token_captured_counterexample :
    ¬ ∀ (hash : ThreadId → Nat) (th1 th2 : ThreadId) (site this : Nat) (sig file : String)
        (ln : Int) (w : World), w.good = true →
        (SitePoint.dtor hash th2 (SitePoint.ctor hash th1 site this sig file ln w).1
            (SitePoint.ctor hash th1 site this sig file ln w).2).log =
          (SitePoint.ctor hash th1 site this sig file ln w).2.log ++
            [exitLine site this
              (Logger.nanos (SitePoint.ctor hash th1 site this sig file ln w).2).1
              (thread_id hash th1)] := by
  intro h
  have h1 := h id 1 2 7 0 "f" "a.cpp" 3 (World.boot (fun k => 5 * k) true) rfl
  revert h1
  decide

/-- C5, amended: the thread token written in the Exit record is `thread_id()`
evaluated by the thread that runs the destructor, when it runs; the record is
the one carrying the token of the Enter record exactly when the two tokens are
equal, which is the case when the destructor runs on the constructing thread. -/
theorem exit_token_recomputed (hash : ThreadId → Nat) (th1 th2 : ThreadId)
    (site this : Nat) (sig file : String) (ln : Int) (w : World) (hg : w.good = true) :
    (SitePoint.dtor hash th2 (SitePoint.ctor hash th1 site this sig file ln w).1
        (SitePoint.ctor hash th1 site this sig file ln w).2).log =
      (SitePoint.ctor hash th1 site this sig file ln w).2.log ++
        [exitLine site this (Logger.nanos (SitePoint.ctor hash th1 site this sig file ln w).2).1
          (thread_id hash th2)] ∧
      (exitLine site this (Logger.nanos (SitePoint.ctor hash th1 site this sig file ln w).2).1
          (thread_id hash th2) =
        exitLine site this (Logger.nanos (SitePoint.ctor hash th1 site this sig file ln w).2).1
          (thread_id hash th1) ↔ thread_id hash th2 = thread_id hash th1) ∧
      (th2 = th1 → thread_id hash th2 = thread_id hash th1) := by
  refine ⟨?_, ⟨fun h => (exitLine_inj _ _ _ _ _ _ _ _ h).2.2.2, fun h => by rw [h]⟩,
    fun h => by rw [h]⟩
  rw [dtor_log, ctor_good, hg, if_pos rfl, ctor_fst]

theorem exit_token_recomputed_witness :
    (World.boot (fun k => 5 * k) true).good = true ∧
      ((SitePoint.dtor id 2 (SitePoint.ctor id 1 7 0 "f" "a.cpp" 3
          (World.boot (fun k => 5 * k) true)).1
          (SitePoint.ctor id 1 7 0 "f" "a.cpp" 3 (World.boot (fun k => 5 * k) true)).2).log =
        (SitePoint.ctor id 1 7 0 "f" "a.cpp" 3 (World.boot (fun k => 5 * k) true)).2.log ++
          [exitLine 7 0 (Logger.nanos (SitePoint.ctor id 1 7 0 "f" "a.cpp" 3
            (World.boot (fun k => 5 * k) true)).2).1 (thread_id id 2)] ∧
        (exitLine 7 0 (Logger.nanos (SitePoint.ctor id 1 7 0 "f" "a.cpp" 3
            (World.boot (fun k => 5 * k) true)).2).1 (thread_id id 2) =
          exitLine 7 0 (Logger.nanos (SitePoint.ctor id 1 7 0 "f" "a.cpp" 3
            (World.boot (fun k => 5 * k) true)).2).1 (thread_id id 1) ↔
          thread_id id 2 = thread_id id 1) ∧
        ((2 : ThreadId) = 1 → thread_id id 2 = thread_id id 1)) :=
  ⟨rfl, exit_token_recomputed id 1 2 7 0 "f" "a.cpp" 3 (World.boot (fun k => 5 * k) true) rfl⟩

/-- C6 fails on the code: a tracer entered 1.000000005 s and left 1.1 s after
the sink was created gets the timestamp fields `1.5` and `1.100000000`, because
the nanosecond fraction is written without leading zeros; read as decimal
numbers of seconds the later one is the smaller. -/
theorem timestamp_fraction_unpadded :
    (run id [Event.construct 0 1 7 0 "int foo(int)" "test.cpp" 10, Event.destroy 0 1]
        (World.boot slowScopeClock true, [])).1.log =
      ["\x7b7|0x0|1.5|0x1|int foo(int)|test.cpp#10", "\x7d7|0x0|1.100000000|0x1"] ∧
      (Logger.nanos (World.boot slowScopeClock true)).1 = 1000000005 ∧
      (Logger.nanos (SitePoint.ctor id 1 7 0 "int foo(int)" "test.cpp" 10
        (World.boot slowScopeClock true)).2).1 = 1100000000 ∧
      timestampField "\x7b7|0x0|1.5|0x1|int foo(int)|test.cpp#10" = "1.5" ∧
      timestampField "\x7d7|0x0|1.100000000|0x1" = "1.100000000" ∧
      readSeconds "1.100000000" < readSeconds "1.5" := by
  refine ⟨by decide, by decide, by decide, by decide, by decide, ?_⟩
  rw [readSeconds, readSeconds, show timestampParts "1.5" = (1, 5, 1) from by decide,
    show timestampParts "1.100000000" = (1, 100000000, 9) from by decide]
  norm_num

/-- C7, as the specification states it, fails: when the destination cannot be
opened, the first call of `Logger::getInstance` returns a sink, with `failbit`
set, the status channel carries the notice only, and a later `Logger::write`
or `SitePoint` construction returns with its line lost. -/
theorem unopenable_sink_counterexample :
    (Logger.getInstance (World.boot (fun k => 5 * k) false)).1.log_.failbit = true ∧
      (Logger.getInstance (World.boot (fun k => 5 * k) false)).2.instance_ =
        some (Logger.getInstance (World.boot (fun k => 5 * k) false)).1 ∧
      (Logger.getInstance (World.boot (fun k => 5 * k) false)).2.cout =
        ["callseq logs to callseq.output"] ∧
      (Logger.write "x" (Logger.getInstance (World.boot (fun k => 5 * k) false)).2).log = [] ∧
      (SitePoint.ctor id 1 7 0 "f" "a.cpp" 3 (World.boot (fun k => 5 * k) false)).2.log = [] := by
  refine ⟨by decide, rfl, by decide, by decide, by decide⟩

/-- C7, amended: when the destination cannot be opened, the first access to the
sink returns normally: `Logger::getInstance` installs and returns a sink whose
stream has `failbit` set, the status channel receives the usual notice and
nothing else, and every later sequence of `Logger::write` calls and every later
run of `SitePoint` constructions and destructions leaves the log empty. -/
theorem unopenable_sink_drops_lines (hash : ThreadId → Nat) (w : World)
    (h0 : w.instance_ = none) (ho : w.openable = false) (msgs : List String)
    (evs : List Event) (st : List (Nat × SitePoint)) :
    (Logger.getInstance w).1.log_.failbit = true ∧
      (Logger.getInstance w).2.instance_ = some (Logger.getInstance w).1 ∧
      (Logger.getInstance w).2.cout = w.cout ++ ["callseq logs to " ++ CALLSEQ_OUTPUT] ∧
      (msgs.foldl (fun w m => Logger.write m w) (Logger.getInstance w).2).log = [] ∧
      (run hash evs ((Logger.getInstance w).2, st)).1.log = [] := by
  obtain ⟨clock, reads, openable, cout, inst⟩ := w
  simp only at h0 ho
  subst h0 ho
  have hg : (Logger.getInstance ⟨clock, reads, false, cout, none⟩).2.good = false := rfl
  refine ⟨rfl, rfl, rfl, ?_, ?_⟩
  · rw [writes_log_of_not_good msgs _ hg]
    rfl
  · rw [run_log_of_not_good hash evs _ st hg]
    rfl

theorem unopenable_sink_drops_lines_witness :
    (World.boot (fun k => 5 * k) false).instance_ = none ∧
      (World.boot (fun k => 5 * k) false).openable = false ∧
      ((Logger.getInstance (World.boot (fun k => 5 * k) false)).1.log_.failbit = true ∧
        (Logger.getInstance (World.boot (fun k => 5 * k) false)).2.instance_ =
          some (Logger.getInstance (World.boot (fun k => 5 * k) false)).1 ∧
        (Logger.getInstance (World.boot (fun k => 5 * k) false)).2.cout =
          (World.boot (fun k => 5 * k) false).cout ++ ["callseq logs to " ++ CALLSEQ_OUTPUT] ∧
        (["x", "y"].foldl (fun w m => Logger.write m w)
          (Logger.getInstance (World.boot (fun k => 5 * k) false)).2).log = [] ∧
        (run id [Event.construct 1 10 7 0 "f" "a.cpp" 3, Event.destroy 1 10]
          ((Logger.getInstance (World.boot (fun k => 5 * k) false)).2, [])).1.log = []) :=
  ⟨rfl, rfl, unopenable_sink_drops_lines id (World.boot (fun k => 5 * k) false) rfl rfl
    ["x", "y"] [Event.construct 1 10 7 0 "f" "a.cpp" 3, Event.destroy 1 10] []⟩

/-- C8: on every thread `thread_id()` returns the hash of the thread identifier
modulo `2 ^ 24`, its low 24 bits, a value below `2 ^ 24`; it depends on nothing
else, so any number of calls on the same thread return that same value. -/
theorem thread_id_low_24_bits (hash : ThreadId → Nat) (th : ThreadId) (n : Nat) :
    thread_id hash th = hash th % 2 ^ 24 ∧ thread_id hash th < 2 ^ 24 ∧
      (List.replicate n th).map (thread_id hash) = List.replicate n (hash th % 2 ^ 24) := by
  refine ⟨thread_id_eq_mod hash th, ?_, ?_⟩
  · rw [thread_id_eq_mod]
    exact Nat.mod_lt _ (by norm_num)
  · rw [List.map_replicate, thread_id_eq_mod]

/-- C10: the Exit record is an injective encoding: when the lines formatted by
the destructor for two tuples of site id, instance token, relative time and
thread token are equal, the tuples are equal, although the nanosecond fraction
is written without padding. It holds for all natural numbers, so for all 64-bit
values. -/
theorem exit_record_injective (s i t tid s' i' t' tid' : Nat)
    (h : (SitePoint.exitStream ⟨s, i⟩ t tid).str = (SitePoint.exitStream ⟨s', i'⟩ t' tid').str) :
    s = s' ∧ i = i' ∧ t = t' ∧ tid = tid' := by
  rw [exitStream_str, exitStream_str] at h
  exact exitLine_inj s i t tid s' i' t' tid' h

theorem exit_record_injective_witness :
    (SitePoint.exitStream ⟨7, 0⟩ 1000000005 1).str =
        (SitePoint.exitStream ⟨7, 0⟩ (1000000000 + 5) 1).str ∧
      (7 = 7 ∧ 0 = 0 ∧ 1000000005 = 1000000000 + 5 ∧ 1 = 1) :=
  ⟨by decide, exit_record_injective 7 0 1000000005 1 7 0 (1000000000 + 5) 1 (by decide)⟩

end callseq
